import Mathlib

/-!
Shallow embedding of the Techjays e-commerce Django application
(`shop/models.py`, `shop/views.py`) and proofs about its behaviour.

Conventions:
* Python `Decimal` values (DecimalField columns and parsed amounts) are
  embedded as the exact fixed-point type `Dec` below: an integer mantissa
  together with a decimal scale, so that `⟨n, s⟩` denotes `n / 10^s`.
  Addition, subtraction and comparison align scales exactly, as Python's
  `Decimal` arithmetic does for fixed-point values.
* Database rows are Lean structures; each table is a list of rows inside
  `State`.  Primary-key and foreign-key integrity, guaranteed by the
  database, appear as explicit hypotheses where a proof needs them.
* `datetime` values are embedded as a calendar-day key (for a valid date
  `y-m-d` the key is `y*10000 + m*100 + d`, which is strictly monotone in
  calendar order) plus the microsecond offset within the day.
-/

/-- Exact decimal number: `num / 10 ^ scale`.  Mirrors the fixed-point
values of Python's `decimal.Decimal` and of Django `DecimalField`s. -/
structure Dec where
  num : Int
  scale : Nat
deriving Repr, DecidableEq

namespace Dec

/-- Ten to the power `n`, as an integer. -/
def pow10 (n : Nat) : Int := (10 : Int) ^ n

/-- Bring two decimals to a common scale (the maximum of the two),
returning the two aligned mantissas and that scale. -/
def align (a b : Dec) : Int × Int × Nat :=
  let s := max a.scale b.scale
  (a.num * pow10 (s - a.scale), b.num * pow10 (s - b.scale), s)

/-- Exact decimal addition (scales are aligned, no rounding). -/
def add (a b : Dec) : Dec :=
  let (x, y, s) := align a b
  ⟨x + y, s⟩

/-- Exact decimal subtraction. -/
def sub (a b : Dec) : Dec :=
  let (x, y, s) := align a b
  ⟨x - y, s⟩

/-- Multiplication of a decimal by an integer (quantities are integers). -/
def mulInt (a : Dec) (k : Int) : Dec := ⟨a.num * k, a.scale⟩

/-- Decimal strict comparison, `a < b`. -/
def blt (a b : Dec) : Bool :=
  let (x, y, _) := align a b
  decide (x < y)

/-- Decimal comparison, `a ≤ b`. -/
def ble (a b : Dec) : Bool :=
  let (x, y, _) := align a b
  decide (x ≤ y)

/-- Embed an integer as a decimal of scale 0. -/
def ofInt (n : Int) : Dec := ⟨n, 0⟩

/-- A decimal with two fractional digits: `u + c/100`, the generic form of
a `DecimalField(decimal_places=2)` value. -/
def cents (n : Int) : Dec := ⟨n, 2⟩

/-- The rational value denoted by a decimal; used to state value-level
properties (the code itself computes only with `Dec`). -/
def val (a : Dec) : Rat := (a.num : Rat) / (10 : Rat) ^ a.scale

/-- Sum of a list of decimals, as Python's `sum` builtin folds `+` from the
left starting at `0`. -/
def lsum (l : List Dec) : Dec := l.foldl add (ofInt 0)

end Dec

/-- Row of the `Product` table (`shop/models.py`, class `Product`). -/
structure Product where
  id : Nat
  name : String
  category : String
  price : Dec
  description : String
  no_of_stocks : Int
  brand : String
deriving Repr, DecidableEq

/-- Row of the `Cart` table (`shop/models.py`, class `Cart`): one cart line
`(user, product, quantity)`.  The `quantity` column has model default 1. -/
structure CartLine where
  userId : Nat
  productId : Nat
  quantity : Int
deriving Repr, DecidableEq

/-- Microseconds in one day; `datetime.max.time()` is one microsecond less. -/
def microsecondsPerDay : Nat := 86400000000

/-- A `datetime` value: calendar-day key plus microseconds within the day. -/
structure DateTime where
  day : Int
  micro : Nat
deriving Repr, DecidableEq

/-- Comparison `a ≤ b` on datetimes (lexicographic on day, then time). -/
def dtLeb (a b : DateTime) : Bool :=
  decide (a.day < b.day) || (a.day == b.day && decide (a.micro ≤ b.micro))

/-- Row of the `Order` table (`shop/models.py`, class `Order`). -/
structure Order where
  userId : Nat
  productId : Nat
  price : Dec
  date_of_purchase : DateTime
deriving Repr, DecidableEq

/-- The database state: the four tables the shop app reads and writes.
Wallets are `(user, balance)` pairs (`shop/models.py`, class `Wallet`,
balance default `0.00`). -/
structure State where
  products : List Product
  carts : List CartLine
  wallets : List (Nat × Dec)
  orders : List Order
deriving Repr, DecidableEq

/-- Lookup `Product.objects.get(id=product_id)`, returning `none` when
`Product.DoesNotExist` would be raised. -/
def findProduct (s : State) (pid : Nat) : Option Product :=
  s.products.find? (fun p => p.id == pid)

/-- Catalog price of a product; the default is never reached when the
foreign key resolves (hypothesised where needed). -/
def productPrice (s : State) (pid : Nat) : Dec :=
  ((findProduct s pid).map Product.price).getD (Dec.ofInt 0)

/-- The user's wallet balance as `Wallet.objects.get_or_create` sees it: the
stored balance, or the model default `0.00` when no row exists yet. -/
def walletBalance (s : State) (uid : Nat) : Dec :=
  ((s.wallets.find? (fun w => w.1 == uid)).map Prod.snd).getD (Dec.cents 0)

/-- The row-creating half of `Wallet.objects.get_or_create(user=user)`:
inserts a wallet with the default balance `0.00` when none exists. -/
def ensureWallet (s : State) (uid : Nat) : State :=
  match s.wallets.find? (fun w => w.1 == uid) with
  | some _ => s
  | none => { s with wallets := s.wallets ++ [(uid, Dec.cents 0)] }

/-- Update of the user's wallet row: `wallet.balance = b; wallet.save()`. -/
def setWallet (s : State) (uid : Nat) (b : Dec) : State :=
  { s with wallets := s.wallets.map (fun w => if w.1 == uid then (uid, b) else w) }

/-! ### AddToCartView.post (`shop/views.py`) -/

/-- Outcome of `AddToCartView.post`. -/
inductive CartOutcome
  | notFound
  | ok
deriving Repr, DecidableEq

/-- View `AddToCartView.post`: look the product up (404 when absent), then
`Cart.objects.get_or_create(user=user, product=product)` — which creates the
row with the model default `quantity = 1` when it does not exist — followed
by `cart_item.quantity += int(quantity); cart_item.save()`. -/
def addToCart (s : State) (uid pid : Nat) (quantity : Int) : CartOutcome × State :=
  match findProduct s pid with
  | none => (CartOutcome.notFound, s)
  | some _ =>
    match s.carts.find? (fun c => c.userId == uid && c.productId == pid) with
    | some _ =>
      (CartOutcome.ok,
       { s with carts := s.carts.map (fun c =>
           if c.userId == uid && c.productId == pid then
             { c with quantity := c.quantity + quantity }
           else c) })
    | none =>
      (CartOutcome.ok,
       { s with carts := s.carts ++ [{ userId := uid, productId := pid, quantity := 1 + quantity }] })

/-! ### AddFundsToWallet.post (`shop/views.py`) -/

/-- The Python exceptions relevant to `AddFundsToWallet.post`. -/
inductive PyExn
  | typeError
  | valueError
  | invalidOperation
deriving Repr, DecidableEq

/-- A JSON value arriving in `request.data` for the `amount` field. -/
inductive ReqValue
  | str (s : String)
  | num (n : Int)
  | other
deriving Repr, DecidableEq

/-- Numeric value of a digit character. -/
def digitVal (c : Char) : Nat := c.toNat - 48

/-- Value of a digit string, most significant digit first. -/
def natOfDigits (cs : List Char) : Nat :=
  cs.foldl (fun a c => a * 10 + digitVal c) 0

/-- Model of `decimal.Decimal(string)` for the plain fixed-point grammar
`[+|-] digits [. digits]` (at least one digit).  Returns `none` where the
constructor raises `decimal.InvalidOperation` (exotic accepted forms such as
exponents, `NaN` or `Infinity` do not occur in the claims considered). -/
def parseDecimal (str : String) : Option Dec :=
  let cs := str.toList
  let neg : Bool := match cs with
    | '-' :: _ => true
    | _ => false
  let rest := match cs with
    | '-' :: r => r
    | '+' :: r => r
    | r => r
  let ip := rest.takeWhile Char.isDigit
  let rem := rest.drop ip.length
  let mag : Option Dec := match rem with
    | [] => if ip.isEmpty then none else some ⟨(natOfDigits ip : Int), 0⟩
    | '.' :: fr =>
      if fr.all Char.isDigit && !(ip.isEmpty && fr.isEmpty) then
        some ⟨(natOfDigits ip * 10 ^ fr.length + natOfDigits fr : Int), fr.length⟩
      else none
    | _ => none
  mag.map (fun v => if neg then ⟨-v.num, v.scale⟩ else v)

/-- Conversion `Decimal(amount)` on a request value: a string is parsed (raising
`InvalidOperation` when it does not parse), a JSON number converts, and any
other type raises `TypeError`. -/
def pyDecimal : ReqValue → Except PyExn Dec
  | ReqValue.str str =>
    match parseDecimal str with
    | some v => Except.ok v
    | none => Except.error PyExn.invalidOperation
  | ReqValue.num n => Except.ok (Dec.ofInt n)
  | ReqValue.other => Except.error PyExn.typeError

/-- Outcome of `AddFundsToWallet.post`.  `uncaught` marks an exception that
escapes the view (the handler catches only `ValueError` and `TypeError`). -/
inductive FundsOutcome
  | badRequest (msg : String)
  | uncaught (e : PyExn)
  | ok (current_balance : Dec)
deriving Repr, DecidableEq

/-- View `AddFundsToWallet.post`: missing amount → 400; `Decimal(amount)` inside
`try ... except (ValueError, TypeError)` — so `decimal.InvalidOperation`
(an `ArithmeticError`, raised for unparseable strings) is NOT caught and
escapes; non-positive amounts → 400; otherwise get-or-create the wallet,
add the amount, save, and return the new balance. -/
def addFunds (s : State) (uid : Nat) (amount : Option ReqValue) : FundsOutcome × State :=
  match amount with
  | none => (FundsOutcome.badRequest "Amount is required", s)
  | some v =>
    match pyDecimal v with
    | Except.error e =>
      if e == PyExn.valueError || e == PyExn.typeError then
        (FundsOutcome.badRequest "Invalid amount. Must be a valid number.", s)
      else
        (FundsOutcome.uncaught e, s)
    | Except.ok amt =>
      if Dec.ble amt (Dec.ofInt 0) then
        (FundsOutcome.badRequest "Amount must be a positive number", s)
      else
        let s1 := ensureWallet s uid
        let b := Dec.add (walletBalance s1 uid) amt
        (FundsOutcome.ok b, setWallet s1 uid b)

/-! ### BuyCartView.post (`shop/views.py`) -/

/-- Outcome of `BuyCartView.post`. -/
inductive BuyOutcome
  | emptyCart
  | insufficientBalance
  | outOfStock (productName : String)
  | ok (total_price remaining_balance : Dec)
deriving Repr, DecidableEq

/-- Placeholder for a dangling foreign key; never reached when referential
integrity (hypothesised where needed) holds. -/
def dummyProduct : Product :=
  { id := 0, name := "", category := "", price := Dec.ofInt 0,
    description := "", no_of_stocks := 0, brand := "" }

/-- Product row a cart line's foreign key resolves to inside the purchase
loop (`item.product`); the default is out of model, as the database
guarantees the key resolves. -/
def prodIn (ps : List Product) (pid : Nat) : Product :=
  (ps.find? (fun p => p.id == pid)).getD dummyProduct

/-- Stock update `product.no_of_stocks -= quantity; product.save()`. -/
def stockDecrement (ps : List Product) (pid : Nat) (q : Int) : List Product :=
  ps.map (fun p => if p.id == pid then { p with no_of_stocks := p.no_of_stocks - q } else p)

/-- Insertion `Order.objects.create(user=…, product=…, price=…, date_of_purchase=…)`.
The model declares `date_of_purchase = DateTimeField(auto_now_add=True)`,
so the value passed by the caller (`datePassed`) is discarded and the
insertion time `dbNow` is stored. -/
def orderCreate (uid : Nat) (product : Product) (price : Dec)
    (datePassed dbNow : DateTime) : Order :=
  { userId := uid, productId := product.id, price := price, date_of_purchase := dbNow }

/-- The purchase loop of `BuyCartView.post` (lines 137–153): for each cart
line in order, re-check the stock, returning the out-of-stock product's name
on failure; otherwise decrement the stock, save, and append an order priced
at the product's current price times the line quantity. -/
def purchaseLoop (uid : Nat) (datePassed dbNow : DateTime) :
    List CartLine → List Product → List Order →
      Option String × List Product × List Order
  | [], ps, os => (none, ps, os)
  | item :: rest, ps, os =>
    if (prodIn ps item.productId).no_of_stocks < item.quantity then
      (some (prodIn ps item.productId).name, ps, os)
    else
      purchaseLoop uid datePassed dbNow rest
        (stockDecrement ps item.productId item.quantity)
        (os ++ [orderCreate uid (prodIn ps item.productId)
                  (Dec.mulInt (prodIn ps item.productId).price item.quantity)
                  datePassed dbNow])

/-- The user's cart lines, `Cart.objects.filter(user=user)`. -/
def cartOf (s : State) (uid : Nat) : List CartLine :=
  s.carts.filter (fun c => c.userId == uid)

/-- Total `sum(item.product.price * item.quantity for item in cart_items)`. -/
def cartTotal (s : State) (uid : Nat) : Dec :=
  Dec.lsum ((cartOf s uid).map (fun item =>
    Dec.mulInt (productPrice s item.productId) item.quantity))

/-- View `BuyCartView.post`: empty cart → 400; compute the total from current
catalog prices; get-or-create the wallet; insufficient balance → 400 with no
debit; otherwise debit and save the wallet, then run the purchase loop —
an out-of-stock failure mid-loop returns 400 keeping every mutation made so
far (no rollback) — and on full success delete the user's cart lines and
report the total and remaining balance.  `reqDate` is the caller-supplied
`date_of_purchase` (defaulting to `datetime.now()`), `now` the server
clock. -/
def buyCart (s : State) (uid : Nat) (reqDate : Option DateTime) (now : DateTime) :
    BuyOutcome × State :=
  let cart_items := cartOf s uid
  if cart_items.isEmpty then (BuyOutcome.emptyCart, s)
  else
    let total_price := cartTotal s uid
    let s1 := ensureWallet s uid
    let bal := walletBalance s1 uid
    if Dec.blt bal total_price then (BuyOutcome.insufficientBalance, s1)
    else
      let s2 := setWallet s1 uid (Dec.sub bal total_price)
      match purchaseLoop uid (reqDate.getD now) now cart_items s2.products s2.orders with
      | (some name, ps, os) =>
        (BuyOutcome.outOfStock name, { s2 with products := ps, orders := os })
      | (none, ps, os) =>
        (BuyOutcome.ok total_price (Dec.sub bal total_price),
         { s2 with products := ps, orders := os,
                   carts := s2.carts.filter (fun c => !(c.userId == uid)) })

/-! ### Sales reports (`shop/views.py`, SalesReportByDateRange / SalesReportByBrand) -/

/-- Outcome of `django.utils.dateparse.parse_date`: `notMatched` when the string
does not match `^(\d{4})-(\d{1,2})-(\d{1,2})$` (the function returns `None`),
`invalid` when it matches but `datetime.date` rejects the values (the
function raises `ValueError`), and otherwise the encoded date. -/
inductive PDResult
  | notMatched
  | invalid
  | ok (encoded : Int)
deriving Repr, DecidableEq

/-- Split a character list at every `'-'`, the separator of the date regex. -/
def splitDash : List Char → List (List Char)
  | [] => [[]]
  | c :: rest =>
    if c = '-' then [] :: splitDash rest
    else
      match splitDash rest with
      | h :: t => (c :: h) :: t
      | [] => [[c]]

/-- Gregorian leap-year rule, as `datetime.date` uses. -/
def isLeap (y : Nat) : Bool := (y % 4 == 0 && y % 100 != 0) || (y % 400 == 0)

/-- Days in a month, as `datetime.date` validates. -/
def daysInMonth (y m : Nat) : Nat :=
  if m == 2 then (if isLeap y then 29 else 28)
  else if m == 4 || m == 6 || m == 9 || m == 11 then 30
  else 31

/-- Model of `parse_date` over the documented regex, with `datetime.date` validation
of the captured fields; valid dates are encoded as `y*10000 + m*100 + d`. -/
def parse_date (str : String) : PDResult :=
  match splitDash str.toList with
  | [ys, ms, ds] =>
    if ys.length == 4 && ys.all Char.isDigit
        && decide (1 ≤ ms.length) && decide (ms.length ≤ 2) && ms.all Char.isDigit
        && decide (1 ≤ ds.length) && decide (ds.length ≤ 2) && ds.all Char.isDigit then
      let y := natOfDigits ys
      let m := natOfDigits ms
      let d := natOfDigits ds
      if decide (1 ≤ y) && decide (1 ≤ m) && decide (m ≤ 12)
          && decide (1 ≤ d) && decide (d ≤ daysInMonth y m) then
        PDResult.ok ((y * 10000 + m * 100 + d : Nat) : Int)
      else PDResult.invalid
    else PDResult.notMatched
  | _ => PDResult.notMatched

/-- Step one of the views' range computation: a `ValueError` raised inside
`parse_date` propagates; a non-match yields `None`. -/
def pdStep : PDResult → Except PyExn (Option Int)
  | PDResult.ok d => Except.ok (some d)
  | PDResult.notMatched => Except.ok none
  | PDResult.invalid => Except.error PyExn.valueError

/-- Step `datetime.combine(raw, …)`: raises `TypeError` when `parse_date`
returned `None`. -/
def combineStep : Option Int → Except PyExn Int
  | some d => Except.ok d
  | none => Except.error PyExn.typeError

/-- Lines 179–182 (and 209–212): parse both endpoints, then combine each
with the day's first/last instant; the first exception raised escapes. -/
def computeRange (f t : String) : Except PyExn (Int × Int) := do
  let fr ← pdStep (parse_date f)
  let tr ← pdStep (parse_date t)
  let fd ← combineStep fr
  let td ← combineStep tr
  return (fd, td)

/-- First instant of a day, `datetime.combine(d, datetime.min.time())`. -/
def startOfDay (d : Int) : DateTime := ⟨d, 0⟩

/-- Last instant of a day, `datetime.combine(d, datetime.max.time())`
(23:59:59.999999). -/
def endOfDay (d : Int) : DateTime := ⟨d, microsecondsPerDay - 1⟩

/-- Filter `Order.objects.filter(date_of_purchase__range=[from_date, to_date])`
with the inclusive endpoints the views build. -/
def ordersInRange (os : List Order) (fd td : Int) : List Order :=
  os.filter (fun o =>
    dtLeb (startOfDay fd) o.date_of_purchase && dtLeb o.date_of_purchase (endOfDay td))

/-- Aggregation `.values(key).annotate(count=Count('id'),
total_price_sold=Sum('price')).order_by(key)`: one row per distinct key among `os`, carrying the count of
matching rows and the sum of their prices, sorted ascending by key. -/
def groupRows {K : Type} [LinearOrder K] [DecidableEq K] (key : Order → K)
    (os : List Order) : List (K × Nat × Dec) :=
  (List.insertionSort (· ≤ ·) ((os.map key).dedup)).map (fun k =>
    let grp := os.filter (fun o => key o = k)
    (k, grp.length, Dec.lsum (grp.map Order.price)))

/-- The by-date aggregation body (lines 184–189). -/
def salesByDate (os : List Order) (fd td : Int) : List (Int × Nat × Dec) :=
  groupRows (fun o => o.date_of_purchase.day) (ordersInRange os fd td)

/-- Join `product__brand` for an order. -/
def productBrand (s : State) (pid : Nat) : String :=
  ((findProduct s pid).map Product.brand).getD ""

/-- The by-brand aggregation body (lines 214–219). -/
def salesByBrand (s : State) (fd td : Int) : List (String × Nat × Dec) :=
  groupRows (fun o => productBrand s o.productId) (ordersInRange s.orders fd td)

/-- Outcome of a report view.  `uncaught` marks an exception escaping the
handler (the views guard only against missing parameters). -/
inductive ReportOutcome (K : Type)
  | badRequest
  | uncaught (e : PyExn)
  | ok (rows : List (K × Nat × Dec))
deriving Repr, DecidableEq

/-- Python falsiness of the query parameter: absent or empty string. -/
def strFalsy : Option String → Bool
  | none => true
  | some str => str.toList.isEmpty

/-- View `SalesReportByDateRange.get`: missing/empty endpoint → 400; then the
range computation (whose exceptions escape); then the by-date aggregation. -/
def salesReportByDateRange (s : State) (from_date to_date : Option String) :
    ReportOutcome Int :=
  if strFalsy from_date || strFalsy to_date then ReportOutcome.badRequest
  else
    match computeRange (from_date.getD "") (to_date.getD "") with
    | Except.error e => ReportOutcome.uncaught e
    | Except.ok (fd, td) => ReportOutcome.ok (salesByDate s.orders fd td)

/-- View `SalesReportByBrand.get`: same validation, by-brand aggregation. -/
def salesReportByBrand (s : State) (from_date to_date : Option String) :
    ReportOutcome String :=
  if strFalsy from_date || strFalsy to_date then ReportOutcome.badRequest
  else
    match computeRange (from_date.getD "") (to_date.getD "") with
    | Except.error e => ReportOutcome.uncaught e
    | Except.ok (fd, td) => ReportOutcome.ok (salesByBrand s fd td)

/-! ### Derived descriptions used in the statements below -/

/-- Stock decrements of a whole list of cart lines, applied in order. -/
def decrementAll (ps : List Product) (items : List CartLine) : List Product :=
  items.foldl (fun acc item => stockDecrement acc item.productId item.quantity) ps

/-- Orders the purchase loop appends for `items`, priced from catalog `ps`:
one order per cart line, at the line's unit price times its quantity, with
the server-assigned timestamp `now`. -/
def ordersFor (uid : Nat) (now : DateTime) (ps : List Product) (items : List CartLine) :
    List Order :=
  items.map (fun item =>
    { userId := uid, productId := (prodIn ps item.productId).id,
      price := Dec.mulInt (prodIn ps item.productId).price item.quantity,
      date_of_purchase := now })

/-! ### Concrete database states for the closed instances -/

/-- Catalog row of the worked example in the specification (§8). -/
def productA : Product :=
  { id := 1, name := "A", category := "c", price := Dec.cents 1000,
    description := "", no_of_stocks := 5, brand := "acme" }

/-- A second catalog row, of another brand, with empty stock. -/
def productB : Product :=
  { id := 2, name := "B", category := "c", price := Dec.cents 500,
    description := "", no_of_stocks := 0, brand := "zeta" }

/-- Timestamp on 2024-09-27. -/
def dt927 : DateTime := ⟨20240927, 0⟩

/-- Timestamp on 2024-09-28. -/
def dt928 : DateTime := ⟨20240928, 3600000000⟩

/-- State of the worked example: cart `{A: qty 2}`, balance 25, stock 5. -/
def stateBuyOk : State :=
  { products := [productA],
    carts := [{ userId := 1, productId := 1, quantity := 2 }],
    wallets := [(1, Dec.cents 2500)], orders := [] }

/-- State where the balance covers the total but product A is out of stock. -/
def stateShort : State :=
  { products := [{ productA with no_of_stocks := 0 }],
    carts := [{ userId := 1, productId := 1, quantity := 2 }],
    wallets := [(1, Dec.cents 2500)], orders := [] }

/-- State with non-negative stocks, a quantity exceeding the stock, and an
empty wallet. -/
def stateBroke : State :=
  { products := [{ productA with no_of_stocks := 0 }],
    carts := [{ userId := 1, productId := 1, quantity := 2 }],
    wallets := [(1, Dec.cents 0)], orders := [] }

/-- State with a two-line cart whose first line passes the stock check and
whose second line is out of stock, with ample balance. -/
def stateTwoLines : State :=
  { products := [productA, productB],
    carts := [{ userId := 1, productId := 1, quantity := 2 },
              { userId := 1, productId := 2, quantity := 1 }],
    wallets := [(1, Dec.cents 5000)], orders := [] }

/-- State with a catalog but an empty cart. -/
def stateEmptyCart : State :=
  { products := [productA], carts := [], wallets := [(1, Dec.cents 2500)],
    orders := [] }

/-- State whose order ledger spreads over two days and two brands. -/
def stateOrders : State :=
  { products := [productA, productB], carts := [], wallets := [],
    orders :=
      [ { userId := 1, productId := 1, price := Dec.cents 1000,
          date_of_purchase := ⟨20240927, 100⟩ },
        { userId := 1, productId := 2, price := Dec.cents 500,
          date_of_purchase := ⟨20240928, 100⟩ },
        { userId := 2, productId := 1, price := Dec.cents 2000,
          date_of_purchase := ⟨20240927, 200⟩ } ] }

/-! ## Lemmas about exact decimals -/

theorem Dec.cast_aligned (n : Int) (t s : Nat) (h : t ≤ s) :
    ((n * Dec.pow10 (s - t) : Int) : Rat) / (10 : Rat) ^ s = (n : Rat) / (10 : Rat) ^ t := by
  have hs : ((10 : Rat) ^ s) ≠ 0 := pow_ne_zero _ (by norm_num)
  have ht : ((10 : Rat) ^ t) ≠ 0 := pow_ne_zero _ (by norm_num)
  rw [Dec.pow10]
  push_cast
  rw [div_eq_div_iff hs ht, mul_assoc, ← pow_add, Nat.sub_add_cancel h]

theorem Dec.cast_aligned_mul (n : Int) (t s : Nat) (h : t ≤ s) :
    ((n : Rat) * ((Dec.pow10 (s - t) : Int) : Rat)) / (10 : Rat) ^ s =
      (n : Rat) / (10 : Rat) ^ t := by
  rw [← Int.cast_mul, Dec.cast_aligned n t s h]

theorem Dec.val_add (a b : Dec) : (Dec.add a b).val = a.val + b.val := by
  show ((a.num * Dec.pow10 (max a.scale b.scale - a.scale) +
         b.num * Dec.pow10 (max a.scale b.scale - b.scale) : Int) : Rat) /
        (10 : Rat) ^ (max a.scale b.scale) = _
  push_cast [-Int.cast_pow]
  rw [add_div, Dec.cast_aligned_mul a.num a.scale _ (le_max_left _ _),
      Dec.cast_aligned_mul b.num b.scale _ (le_max_right _ _)]
  rfl

theorem Dec.val_sub (a b : Dec) : (Dec.sub a b).val = a.val - b.val := by
  show ((a.num * Dec.pow10 (max a.scale b.scale - a.scale) -
         b.num * Dec.pow10 (max a.scale b.scale - b.scale) : Int) : Rat) /
        (10 : Rat) ^ (max a.scale b.scale) = _
  push_cast [-Int.cast_pow]
  rw [sub_div, Dec.cast_aligned_mul a.num a.scale _ (le_max_left _ _),
      Dec.cast_aligned_mul b.num b.scale _ (le_max_right _ _)]
  rfl

theorem Dec.val_mulInt (a : Dec) (k : Int) :
    (Dec.mulInt a k).val = a.val * (k : Rat) := by
  show ((a.num * k : Int) : Rat) / (10 : Rat) ^ a.scale = _
  push_cast
  unfold Dec.val
  ring

theorem Dec.ble_iff (a b : Dec) : Dec.ble a b = true ↔ a.val ≤ b.val := by
  have h10 : (0 : Rat) < (10 : Rat) ^ (max a.scale b.scale) := by positivity
  show decide (a.num * Dec.pow10 (max a.scale b.scale - a.scale) ≤
        b.num * Dec.pow10 (max a.scale b.scale - b.scale)) = true ↔ _
  rw [decide_eq_true_eq]
  unfold Dec.val
  rw [← Dec.cast_aligned a.num a.scale _ (le_max_left _ _),
      ← Dec.cast_aligned b.num b.scale _ (le_max_right _ _),
      div_le_div_iff_of_pos_right h10, Int.cast_le]

theorem Dec.blt_iff (a b : Dec) : Dec.blt a b = true ↔ a.val < b.val := by
  have h10 : (0 : Rat) < (10 : Rat) ^ (max a.scale b.scale) := by positivity
  show decide (a.num * Dec.pow10 (max a.scale b.scale - a.scale) <
        b.num * Dec.pow10 (max a.scale b.scale - b.scale)) = true ↔ _
  rw [decide_eq_true_eq]
  unfold Dec.val
  rw [← Dec.cast_aligned a.num a.scale _ (le_max_left _ _),
      ← Dec.cast_aligned b.num b.scale _ (le_max_right _ _),
      div_lt_div_iff_of_pos_right h10, Int.cast_lt]

theorem Dec.blt_eq_false (a b : Dec) : Dec.blt a b = false ↔ b.val ≤ a.val := by
  rw [← not_lt, ← Dec.blt_iff a b, Bool.not_eq_true]

theorem Dec.val_ofInt (n : Int) : (Dec.ofInt n).val = (n : Rat) := by
  unfold Dec.ofInt Dec.val
  norm_num

theorem Dec.val_foldl (l : List Dec) (acc : Dec) :
    (l.foldl Dec.add acc).val = acc.val + (l.map Dec.val).sum := by
  induction l generalizing acc with
  | nil => simp
  | cons h t ih =>
    rw [List.foldl_cons, ih, Dec.val_add, List.map_cons, List.sum_cons]
    ring

theorem Dec.val_lsum (l : List Dec) : (Dec.lsum l).val = (l.map Dec.val).sum := by
  unfold Dec.lsum
  rw [Dec.val_foldl, Dec.val_ofInt]
  norm_num

/-! ## Lemmas about the wallet store -/

theorem ensureWallet_products (s : State) (uid : Nat) :
    (ensureWallet s uid).products = s.products := by
  unfold ensureWallet
  cases s.wallets.find? (fun w => w.1 == uid) <;> rfl

theorem ensureWallet_carts (s : State) (uid : Nat) :
    (ensureWallet s uid).carts = s.carts := by
  unfold ensureWallet
  cases s.wallets.find? (fun w => w.1 == uid) <;> rfl

theorem ensureWallet_orders (s : State) (uid : Nat) :
    (ensureWallet s uid).orders = s.orders := by
  unfold ensureWallet
  cases s.wallets.find? (fun w => w.1 == uid) <;> rfl

theorem walletBalance_ensureWallet (s : State) (uid u : Nat) :
    walletBalance (ensureWallet s uid) u = walletBalance s u := by
  unfold ensureWallet walletBalance
  cases hf : s.wallets.find? (fun w => w.1 == uid) with
  | some w => rfl
  | none =>
    simp only [List.find?_append]
    cases hg : s.wallets.find? (fun w => w.1 == u) with
    | some w => rfl
    | none =>
      by_cases hu : uid = u
      · subst hu
        simp [hf]
      · simp only [Option.none_or, List.find?_cons, List.find?_nil]
        have hne : ((uid, Dec.cents 0).1 == u) = false := by
          simp [hu]
        rw [hne]

theorem ensureWallet_found (s : State) (uid : Nat) :
    ((ensureWallet s uid).wallets.find? (fun w => w.1 == uid)).isSome = true := by
  unfold ensureWallet
  cases hf : s.wallets.find? (fun w => w.1 == uid) with
  | some w => simp [hf]
  | none => simp [hf, List.find?_append]

theorem walletBalance_setWallet_self (s : State) (uid : Nat) (b : Dec)
    (h : (s.wallets.find? (fun w => w.1 == uid)).isSome = true) :
    walletBalance (setWallet s uid b) uid = b := by
  unfold walletBalance setWallet
  simp only [List.find?_map]
  have hpf : ((fun w : Nat × Dec => w.1 == uid) ∘
      (fun w : Nat × Dec => if w.1 == uid then (uid, b) else w)) =
      (fun w : Nat × Dec => w.1 == uid) := by
    funext w
    by_cases hw : (w.1 == uid) = true
    · simp [Function.comp, hw]
    · simp [Function.comp, hw]
  rw [hpf]
  obtain ⟨w0, hw0⟩ := Option.isSome_iff_exists.mp h
  rw [hw0]
  have hp : w0.1 = uid := by simpa using List.find?_some hw0
  simp [hp]

/-! ## Lemmas about stock decrements and the purchase loop -/

theorem stockDecrement_find? (ps : List Product) (pid : Nat) (q : Int) (x : Nat) :
    (stockDecrement ps pid q).find? (fun p => p.id == x) =
      ((ps.find? (fun p => p.id == x)).map
        (fun p => if p.id == pid then { p with no_of_stocks := p.no_of_stocks - q } else p)) := by
  unfold stockDecrement
  rw [List.find?_map]
  have hpred : ((fun p : Product => p.id == x) ∘
      (fun p => if p.id == pid then { p with no_of_stocks := p.no_of_stocks - q } else p)) =
      (fun p : Product => p.id == x) := by
    funext p
    by_cases hp : (p.id == pid) = true <;> simp [Function.comp, hp]
  rw [hpred]

theorem prodIn_stockDecrement_ne (ps : List Product) (pid : Nat) (q : Int) (x : Nat)
    (hx : x ≠ pid) :
    prodIn (stockDecrement ps pid q) x = prodIn ps x := by
  unfold prodIn
  rw [stockDecrement_find?]
  cases hf : ps.find? (fun p => p.id == x) with
  | none => rfl
  | some p =>
    have hpx : p.id = x := by simpa using List.find?_some hf
    have hne : p.id ≠ pid := by rw [hpx]; exact hx
    simp [hne]

theorem stockDecrement_find?_isSome (ps : List Product) (pid : Nat) (q : Int) (x : Nat) :
    ((stockDecrement ps pid q).find? (fun p => p.id == x)).isSome =
      (ps.find? (fun p => p.id == x)).isSome := by
  rw [stockDecrement_find?]
  cases ps.find? (fun p => p.id == x) <;> rfl

theorem prodIn_stockDecrement_self (ps : List Product) (pid : Nat) (q : Int)
    (h : (ps.find? (fun p => p.id == pid)).isSome = true) :
    prodIn (stockDecrement ps pid q) pid =
      { prodIn ps pid with no_of_stocks := (prodIn ps pid).no_of_stocks - q } := by
  unfold prodIn
  rw [stockDecrement_find?]
  obtain ⟨p, hp⟩ := Option.isSome_iff_exists.mp h
  rw [hp]
  have hpx : p.id = pid := by simpa using List.find?_some hp
  simp [hpx]

theorem decrementAll_append (ps : List Product) (l1 l2 : List CartLine) :
    decrementAll ps (l1 ++ l2) = decrementAll (decrementAll ps l1) l2 := by
  unfold decrementAll
  rw [List.foldl_append]

theorem decrementAll_cons (ps : List Product) (j : CartLine) (t : List CartLine) :
    decrementAll ps (j :: t) = decrementAll (stockDecrement ps j.productId j.quantity) t := rfl

theorem prodIn_decrementAll_not_mem (ps : List Product) (items : List CartLine) (x : Nat)
    (hx : ∀ j ∈ items, j.productId ≠ x) :
    prodIn (decrementAll ps items) x = prodIn ps x := by
  induction items generalizing ps with
  | nil => rfl
  | cons j t ih =>
    rw [decrementAll_cons, ih _ (fun i hi => hx i (List.mem_cons_of_mem _ hi)),
      prodIn_stockDecrement_ne _ _ _ _ (hx j (List.mem_cons_self _ _)).symm]

theorem decrementAll_find?_isSome (ps : List Product) (items : List CartLine) (x : Nat) :
    ((decrementAll ps items).find? (fun p => p.id == x)).isSome =
      (ps.find? (fun p => p.id == x)).isSome := by
  induction items generalizing ps with
  | nil => rfl
  | cons j t ih => rw [decrementAll_cons, ih, stockDecrement_find?_isSome]

theorem prodIn_decrementAll_of_mem (ps : List Product) (l1 l2 : List CartLine) (j : CartLine)
    (h1 : ∀ i ∈ l1, i.productId ≠ j.productId)
    (h2 : ∀ i ∈ l2, i.productId ≠ j.productId)
    (hf : (ps.find? (fun p => p.id == j.productId)).isSome = true) :
    prodIn (decrementAll ps (l1 ++ j :: l2)) j.productId =
      { prodIn ps j.productId with
          no_of_stocks := (prodIn ps j.productId).no_of_stocks - j.quantity } := by
  rw [decrementAll_append, decrementAll_cons, prodIn_decrementAll_not_mem _ _ _ h2,
    prodIn_stockDecrement_self _ _ _ (by rw [decrementAll_find?_isSome]; exact hf),
    prodIn_decrementAll_not_mem _ _ _ h1]

theorem ordersFor_congr (uid : Nat) (now : DateTime) (ps ps2 : List Product)
    (items : List CartLine)
    (h : ∀ i ∈ items, prodIn ps i.productId = prodIn ps2 i.productId) :
    ordersFor uid now ps items = ordersFor uid now ps2 items := by
  unfold ordersFor
  exact List.map_congr_left (fun i hi => by rw [h i hi])

theorem purchaseLoop_success (uid : Nat) (dp now : DateTime) (items : List CartLine)
    (ps : List Product) (os : List Order)
    (hdis : items.Pairwise (fun a b => a.productId ≠ b.productId))
    (hpass : ∀ item ∈ items, ¬ (prodIn ps item.productId).no_of_stocks < item.quantity) :
    purchaseLoop uid dp now items ps os =
      (none, decrementAll ps items, os ++ ordersFor uid now ps items) := by
  induction items generalizing ps os with
  | nil => simp [purchaseLoop, decrementAll, ordersFor]
  | cons item rest ih =>
    obtain ⟨hhead, htail⟩ := List.pairwise_cons.mp hdis
    rw [purchaseLoop, if_neg (hpass item (List.mem_cons_self _ _))]
    have hchg : ∀ i ∈ rest,
        prodIn (stockDecrement ps item.productId item.quantity) i.productId =
          prodIn ps i.productId :=
      fun i hi => prodIn_stockDecrement_ne _ _ _ _ (hhead i hi).symm
    rw [ih _ _ htail (fun i hi => by rw [hchg i hi]; exact hpass i (List.mem_cons_of_mem _ hi))]
    rw [decrementAll_cons, ordersFor_congr uid now _ ps rest hchg]
    unfold ordersFor orderCreate
    simp [List.append_assoc]

theorem purchaseLoop_fail (uid : Nat) (dp now : DateTime) (pre : List CartLine)
    (item : CartLine) (post : List CartLine) (ps : List Product) (os : List Order)
    (hdis : (pre ++ item :: post).Pairwise (fun a b => a.productId ≠ b.productId))
    (hpass : ∀ j ∈ pre, ¬ (prodIn ps j.productId).no_of_stocks < j.quantity)
    (hfail : (prodIn ps item.productId).no_of_stocks < item.quantity) :
    purchaseLoop uid dp now (pre ++ item :: post) ps os =
      (some (prodIn ps item.productId).name, decrementAll ps pre,
       os ++ ordersFor uid now ps pre) := by
  induction pre generalizing ps os with
  | nil =>
    simp only [List.nil_append]
    rw [purchaseLoop, if_pos hfail]
    simp [decrementAll, ordersFor]
  | cons j t ih =>
    obtain ⟨hhead, htail⟩ := List.pairwise_cons.mp (List.cons_append j t (item :: post) ▸ hdis)
    rw [List.cons_append, purchaseLoop, if_neg (hpass j (List.mem_cons_self _ _))]
    have hitem : item ∈ t ++ item :: post :=
      List.mem_append_right _ (List.mem_cons_self _ _)
    have hchg : ∀ i ∈ t ++ item :: post,
        prodIn (stockDecrement ps j.productId j.quantity) i.productId =
          prodIn ps i.productId :=
      fun i hi => prodIn_stockDecrement_ne _ _ _ _ (hhead i hi).symm
    rw [ih _ _ htail
      (fun i hi => by
        rw [hchg i (List.mem_append_left _ hi)]
        exact hpass i (List.mem_cons_of_mem _ hi))
      (by rw [hchg item hitem]; exact hfail)]
    rw [hchg item hitem, decrementAll_cons,
      ordersFor_congr uid now _ ps t (fun i hi => hchg i (List.mem_append_left _ hi))]
    unfold ordersFor orderCreate
    simp [List.append_assoc]

theorem find?_unique_of_pairwise (ps : List Product)
    (hpk : ps.Pairwise (fun p q => p.id ≠ q.id)) (p : Product) (hp : p ∈ ps) :
    ps.find? (fun q => q.id == p.id) = some p := by
  induction ps with
  | nil => cases hp
  | cons h t ih =>
    rcases List.mem_cons.mp hp with rfl | hmem
    · simp
    · obtain ⟨hhead, htail⟩ := List.pairwise_cons.mp hpk
      rw [List.find?_cons_of_neg _ (by simp [hhead p hmem]), ih htail hmem]

theorem stockDecrement_id (pid : Nat) (q : Int) (p : Product) :
    (if p.id == pid then { p with no_of_stocks := p.no_of_stocks - q } else p).id = p.id := by
  by_cases h : (p.id == pid) = true <;> simp [h]

theorem stockDecrement_pairwise (ps : List Product) (pid : Nat) (q : Int)
    (hpk : ps.Pairwise (fun p pq => p.id ≠ pq.id)) :
    (stockDecrement ps pid q).Pairwise (fun p pq => p.id ≠ pq.id) := by
  unfold stockDecrement
  rw [List.pairwise_map]
  exact hpk.imp (fun {a b} hab => by rw [stockDecrement_id, stockDecrement_id]; exact hab)

theorem stockDecrement_nonneg (ps : List Product) (pid : Nat) (q : Int)
    (hnn : ∀ p ∈ ps, 0 ≤ p.no_of_stocks)
    (hq : ∀ p ∈ ps, p.id = pid → q ≤ p.no_of_stocks) :
    ∀ p ∈ stockDecrement ps pid q, 0 ≤ p.no_of_stocks := by
  intro p hp
  unfold stockDecrement at hp
  obtain ⟨p0, hp0, rfl⟩ := List.mem_map.mp hp
  by_cases h : (p0.id == pid) = true
  · have hle := hq p0 hp0 (by simpa using h)
    rw [if_pos h]
    show 0 ≤ p0.no_of_stocks - q
    omega
  · rw [if_neg h]
    exact hnn p0 hp0

theorem purchaseLoop_nonneg (uid : Nat) (dp now : DateTime) :
    ∀ (items : List CartLine) (ps : List Product) (os : List Order),
      ps.Pairwise (fun p q => p.id ≠ q.id) →
      (∀ p ∈ ps, 0 ≤ p.no_of_stocks) →
      ∀ p ∈ (purchaseLoop uid dp now items ps os).2.1, 0 ≤ p.no_of_stocks
  | [], ps, os, hpk, hnn => hnn
  | item :: rest, ps, os, hpk, hnn => by
    rw [purchaseLoop]
    by_cases hc : (prodIn ps item.productId).no_of_stocks < item.quantity
    · rw [if_pos hc]; exact hnn
    · rw [if_neg hc]
      refine purchaseLoop_nonneg uid dp now rest _ _
        (stockDecrement_pairwise _ _ _ hpk) (stockDecrement_nonneg _ _ _ hnn ?_)
      intro p hp hid
      have hfind : ps.find? (fun q => q.id == p.id) = some p :=
        find?_unique_of_pairwise ps hpk p hp
      have hpe : prodIn ps item.productId = p := by
        unfold prodIn
        rw [← hid, hfind]
        rfl
      rw [← hpe]
      exact not_lt.mp hc

theorem purchaseLoop_none_products (uid : Nat) (dp now : DateTime) :
    ∀ (items : List CartLine) (ps : List Product) (os : List Order),
      (purchaseLoop uid dp now items ps os).1 = none →
      (purchaseLoop uid dp now items ps os).2.1 = decrementAll ps items
  | [], _, _, _ => rfl
  | item :: rest, ps, os, h => by
    rw [purchaseLoop] at h ⊢
    by_cases hc : (prodIn ps item.productId).no_of_stocks < item.quantity
    · rw [if_pos hc] at h
      exact absurd h (by simp)
    · rw [if_neg hc] at h ⊢
      rw [decrementAll_cons]
      exact purchaseLoop_none_products uid dp now rest _ _ h

theorem purchaseLoop_datePassed_irrel (uid : Nat) (dp dp2 now : DateTime) :
    ∀ (items : List CartLine) (ps : List Product) (os : List Order),
      purchaseLoop uid dp now items ps os = purchaseLoop uid dp2 now items ps os
  | [], _, _ => rfl
  | item :: rest, ps, os => by
    rw [purchaseLoop, purchaseLoop]
    by_cases hc : (prodIn ps item.productId).no_of_stocks < item.quantity
    · rw [if_pos hc, if_pos hc]
    · rw [if_neg hc, if_neg hc]
      exact purchaseLoop_datePassed_irrel uid dp dp2 now rest _ _

theorem purchaseLoop_orders_date (uid : Nat) (dp now : DateTime) :
    ∀ (items : List CartLine) (ps : List Product) (os : List Order),
      ∀ o ∈ (purchaseLoop uid dp now items ps os).2.2,
        o ∈ os ∨ o.date_of_purchase = now
  | [], _, _, o, ho => Or.inl ho
  | item :: rest, ps, os, o, ho => by
    rw [purchaseLoop] at ho
    by_cases hc : (prodIn ps item.productId).no_of_stocks < item.quantity
    · rw [if_pos hc] at ho
      exact Or.inl ho
    · rw [if_neg hc] at ho
      rcases purchaseLoop_orders_date uid dp now rest _ _ o ho with hmem | hdate
      · rcases List.mem_append.mp hmem with hos | hnew
        · exact Or.inl hos
        · right
          have : o = orderCreate uid (prodIn ps item.productId)
              (Dec.mulInt (prodIn ps item.productId).price item.quantity) dp now := by
            simpa using hnew
          rw [this]
          rfl
      · exact Or.inr hdate

/-! ## Branch lemmas for the checkout view -/

theorem buyCart_empty (s : State) (uid : Nat) (rd : Option DateTime) (now : DateTime)
    (h : (cartOf s uid).isEmpty = true) :
    buyCart s uid rd now = (BuyOutcome.emptyCart, s) := by
  unfold buyCart
  simp [h]

theorem buyCart_insufficient (s : State) (uid : Nat) (rd : Option DateTime) (now : DateTime)
    (hne : (cartOf s uid).isEmpty = false)
    (hlt : Dec.blt (walletBalance s uid) (cartTotal s uid) = true) :
    buyCart s uid rd now = (BuyOutcome.insufficientBalance, ensureWallet s uid) := by
  unfold buyCart
  simp [hne, walletBalance_ensureWallet, hlt]

theorem buyCart_loop (s : State) (uid : Nat) (rd : Option DateTime) (now : DateTime)
    (hne : (cartOf s uid).isEmpty = false)
    (hge : Dec.blt (walletBalance s uid) (cartTotal s uid) = false) :
    buyCart s uid rd now =
      (match purchaseLoop uid (rd.getD now) now (cartOf s uid) s.products s.orders with
       | (some name, ps, os) =>
         (BuyOutcome.outOfStock name,
          { products := ps, carts := s.carts,
            wallets := (setWallet (ensureWallet s uid) uid
              (Dec.sub (walletBalance s uid) (cartTotal s uid))).wallets,
            orders := os })
       | (none, ps, os) =>
         (BuyOutcome.ok (cartTotal s uid) (Dec.sub (walletBalance s uid) (cartTotal s uid)),
          { products := ps,
            carts := s.carts.filter (fun c => !(c.userId == uid)),
            wallets := (setWallet (ensureWallet s uid) uid
              (Dec.sub (walletBalance s uid) (cartTotal s uid))).wallets,
            orders := os })) := by
  unfold buyCart
  simp only [hne, Bool.false_eq_true, if_false, walletBalance_ensureWallet, hge, setWallet,
    ensureWallet_products, ensureWallet_carts, ensureWallet_orders]

theorem buyCart_wallets_of_not_lt (s : State) (uid : Nat) (rd : Option DateTime)
    (now : DateTime)
    (hne : (cartOf s uid).isEmpty = false)
    (hge : Dec.blt (walletBalance s uid) (cartTotal s uid) = false) :
    (buyCart s uid rd now).2.wallets =
      (setWallet (ensureWallet s uid) uid
        (Dec.sub (walletBalance s uid) (cartTotal s uid))).wallets := by
  rw [buyCart_loop s uid rd now hne hge]
  rcases purchaseLoop uid (rd.getD now) now (cartOf s uid) s.products s.orders
    with ⟨fst, ps, os⟩
  cases fst <;> rfl

theorem walletBalance_eq_of_wallets_eq (s1 s2 : State) (u : Nat)
    (h : s1.wallets = s2.wallets) : walletBalance s1 u = walletBalance s2 u := by
  unfold walletBalance
  rw [h]

theorem filter_user_of_filter_not_user (l : List CartLine) (uid : Nat) :
    (l.filter (fun c => !(c.userId == uid))).filter (fun c => c.userId == uid) = [] := by
  induction l with
  | nil => rfl
  | cons c t ih =>
    cases h : c.userId == uid with
    | true => simpa [List.filter_cons, h] using ih
    | false => simpa [List.filter_cons, h] using ih

/-! ## Claim C10 -/

/-- C10: the purchase timestamp stored on an `Order` is server-assigned.
Because `date_of_purchase` is declared with `auto_now_add=True`, the value a
caller supplies in the request is discarded: two checkout runs from the same
state differing only in the caller-supplied `date_of_purchase` produce
identical outcomes and identical states, and every order row checkout
appends carries the server time `now`. -/
theorem C10_timestamp_server_assigned (s : State) (uid : Nat)
    (r1 r2 : Option DateTime) (now : DateTime) :
    buyCart s uid r1 now = buyCart s uid r2 now ∧
    ∀ o ∈ (buyCart s uid r1 now).2.orders, o ∈ s.orders ∨ o.date_of_purchase = now := by
  constructor
  · unfold buyCart
    simp only [purchaseLoop_datePassed_irrel uid (r1.getD now) (r2.getD now) now]
  · intro o ho
    cases hemp : (cartOf s uid).isEmpty with
    | true =>
      rw [buyCart_empty s uid r1 now hemp] at ho
      exact Or.inl ho
    | false =>
      cases hlt : Dec.blt (walletBalance s uid) (cartTotal s uid) with
      | true =>
        rw [buyCart_insufficient s uid r1 now hemp hlt] at ho
        exact Or.inl (by rwa [ensureWallet_orders] at ho)
      | false =>
        rw [buyCart_loop s uid r1 now hemp hlt] at ho
        have horders :=
          purchaseLoop_orders_date uid (r1.getD now) now (cartOf s uid) s.products s.orders
        rcases hres : purchaseLoop uid (r1.getD now) now (cartOf s uid) s.products s.orders
          with ⟨fst, ps, os⟩
        rw [hres] at ho horders
        cases fst with
        | none => exact horders o ho
        | some name => exact horders o ho

/-- Closed instance of `C10_timestamp_server_assigned`. -/
theorem C10_timestamp_server_assigned_witness :
    buyCart stateBuyOk 1 (some dt928) dt927 = buyCart stateBuyOk 1 none dt927 ∧
    ∀ o ∈ (buyCart stateBuyOk 1 (some dt928) dt927).2.orders,
      o ∈ stateBuyOk.orders ∨ o.date_of_purchase = dt927 :=
  C10_timestamp_server_assigned stateBuyOk 1 (some dt928) none dt927

/-! ## Claim C2 -/

/-- C2: checkout keeps a non-negative wallet balance non-negative, whether it
succeeds or fails, and the debit is only performed when the balance covers
the total: the final balance is either the unchanged prior balance, or
prior − total with total ≤ prior. -/
theorem C2_wallet_nonneg (s : State) (uid : Nat) (rd : Option DateTime) (now : DateTime)
    (h : 0 ≤ (walletBalance s uid).val) :
    0 ≤ (walletBalance (buyCart s uid rd now).2 uid).val ∧
    (walletBalance (buyCart s uid rd now).2 uid = walletBalance s uid ∨
      ((cartTotal s uid).val ≤ (walletBalance s uid).val ∧
       walletBalance (buyCart s uid rd now).2 uid =
         Dec.sub (walletBalance s uid) (cartTotal s uid))) := by
  cases hemp : (cartOf s uid).isEmpty with
  | true =>
    rw [buyCart_empty s uid rd now hemp]
    exact ⟨h, Or.inl rfl⟩
  | false =>
    cases hlt : Dec.blt (walletBalance s uid) (cartTotal s uid) with
    | true =>
      rw [buyCart_insufficient s uid rd now hemp hlt, walletBalance_ensureWallet]
      exact ⟨h, Or.inl rfl⟩
    | false =>
      have hle : (cartTotal s uid).val ≤ (walletBalance s uid).val :=
        (Dec.blt_eq_false _ _).mp hlt
      have hw : walletBalance (buyCart s uid rd now).2 uid =
          Dec.sub (walletBalance s uid) (cartTotal s uid) := by
        rw [walletBalance_eq_of_wallets_eq _ _ uid
            (buyCart_wallets_of_not_lt s uid rd now hemp hlt),
          walletBalance_setWallet_self _ _ _ (ensureWallet_found s uid)]
      refine ⟨?_, Or.inr ⟨hle, hw⟩⟩
      rw [hw, Dec.val_sub]
      linarith

/-- Closed instance of `C2_wallet_nonneg` at the worked example. -/
theorem C2_wallet_nonneg_witness :
    0 ≤ (walletBalance (buyCart stateBuyOk 1 none dt927).2 1).val ∧
    (walletBalance (buyCart stateBuyOk 1 none dt927).2 1 = walletBalance stateBuyOk 1 ∨
      ((cartTotal stateBuyOk 1).val ≤ (walletBalance stateBuyOk 1).val ∧
       walletBalance (buyCart stateBuyOk 1 none dt927).2 1 =
         Dec.sub (walletBalance stateBuyOk 1) (cartTotal stateBuyOk 1))) :=
  C2_wallet_nonneg stateBuyOk 1 none dt927 (by norm_num [walletBalance, stateBuyOk, Dec.val, Dec.cents])

/-! ## Claim C5 -/

/-- C5: when the user's non-empty cart totals more than the wallet balance,
checkout fails with the insufficient-balance error and leaves the products,
the cart lines, the order ledger, and every user's effective wallet balance
exactly as they were. -/
theorem C5_insufficient_no_side_effects (s : State) (uid : Nat)
    (rd : Option DateTime) (now : DateTime)
    (hne : (cartOf s uid).isEmpty = false)
    (hlt : Dec.blt (walletBalance s uid) (cartTotal s uid) = true) :
    (buyCart s uid rd now).1 = BuyOutcome.insufficientBalance ∧
    (buyCart s uid rd now).2.products = s.products ∧
    (buyCart s uid rd now).2.carts = s.carts ∧
    (buyCart s uid rd now).2.orders = s.orders ∧
    ∀ u : Nat, walletBalance (buyCart s uid rd now).2 u = walletBalance s u := by
  rw [buyCart_insufficient s uid rd now hne hlt]
  exact ⟨rfl, ensureWallet_products s uid, ensureWallet_carts s uid,
    ensureWallet_orders s uid, fun u => walletBalance_ensureWallet s uid u⟩

/-- Closed instance of `C5_insufficient_no_side_effects`. -/
theorem C5_insufficient_no_side_effects_witness :
    (buyCart stateBroke 1 none dt927).1 = BuyOutcome.insufficientBalance ∧
    (buyCart stateBroke 1 none dt927).2.products = stateBroke.products ∧
    (buyCart stateBroke 1 none dt927).2.carts = stateBroke.carts ∧
    (buyCart stateBroke 1 none dt927).2.orders = stateBroke.orders ∧
    ∀ u : Nat, walletBalance (buyCart stateBroke 1 none dt927).2 u =
      walletBalance stateBroke u :=
  C5_insufficient_no_side_effects stateBroke 1 none dt927 (by decide) (by decide)

/-! ## Facts relating the loop's product lookups to the catalog -/

theorem prodIn_id_of_found (ps : List Product) (pid : Nat)
    (h : (ps.find? (fun p => p.id == pid)).isSome = true) :
    (prodIn ps pid).id = pid := by
  obtain ⟨p, hp⟩ := Option.isSome_iff_exists.mp h
  unfold prodIn
  rw [hp]
  simpa using List.find?_some hp

theorem productPrice_eq (s : State) (pid : Nat) :
    productPrice s pid = (prodIn s.products pid).price := by
  unfold productPrice findProduct prodIn
  cases s.products.find? (fun p => p.id == pid) <;> rfl

theorem cartTotal_val (s : State) (uid : Nat) :
    (cartTotal s uid).val =
      ((cartOf s uid).map (fun item =>
        (productPrice s item.productId).val * (item.quantity : Rat))).sum := by
  unfold cartTotal
  rw [Dec.val_lsum, List.map_map]
  exact congrArg List.sum
    (List.map_congr_left (fun i _ => by simp [Function.comp, Dec.val_mulInt]))

theorem ordersFor_eq_of_fk (s : State) (uid : Nat) (now : DateTime)
    (items : List CartLine)
    (hfk : ∀ i ∈ items, (findProduct s i.productId).isSome = true) :
    ordersFor uid now s.products items =
      items.map (fun item =>
        { userId := uid, productId := item.productId,
          price := Dec.mulInt (productPrice s item.productId) item.quantity,
          date_of_purchase := now }) := by
  unfold ordersFor
  refine List.map_congr_left (fun i hi => ?_)
  rw [prodIn_id_of_found _ _ (hfk i hi), productPrice_eq]

theorem pairwise_decomp_pre (pre : List CartLine) (item : CartLine) (post : List CartLine)
    (hdis : (pre ++ item :: post).Pairwise (fun a b => a.productId ≠ b.productId)) :
    ∀ j ∈ pre, j.productId ≠ item.productId := by
  rw [List.pairwise_append] at hdis
  intro j hj
  exact hdis.2.2 j hj item (List.mem_cons_self _ _)

theorem pairwise_decomp_post (pre : List CartLine) (item : CartLine) (post : List CartLine)
    (hdis : (pre ++ item :: post).Pairwise (fun a b => a.productId ≠ b.productId)) :
    ∀ j ∈ post, j.productId ≠ item.productId := by
  rw [List.pairwise_append] at hdis
  intro j hj
  exact ((List.pairwise_cons.mp hdis.2.1).1 j hj).symm

/-! ## Claim C1 -/

/-- C1 counterexample: in `stateShort` the cart is non-empty and the wallet
balance covers the cart total, yet checkout does not succeed — it fails with
the out-of-stock error for product A, refuting the claim that balance
sufficiency alone makes checkout succeed. -/
theorem C1_counterexample :
    (cartOf stateShort 1).isEmpty = false ∧
    Dec.blt (walletBalance stateShort 1) (cartTotal stateShort 1) = false ∧
    (buyCart stateShort 1 none dt927).1 = BuyOutcome.outOfStock "A" := by decide

/-- C1 (amended with the stock condition the code also requires): when the
user's cart is non-empty, its lines reference existing pairwise-distinct
products, every line's quantity is within the product's stock, and the
balance covers the total, checkout succeeds; the reported total is
Σ (current unit price × quantity) over the cart, the reported remaining
balance is prior − total and the wallet stores it, the user's cart lines are
all deleted, and exactly one order per prior cart line is appended, priced
at that line's unit price times its quantity. -/
theorem C1_checkout_success (s : State) (uid : Nat) (rd : Option DateTime)
    (now : DateTime)
    (hne : (cartOf s uid).isEmpty = false)
    (hfk : ∀ i ∈ cartOf s uid, (findProduct s i.productId).isSome = true)
    (hdis : (cartOf s uid).Pairwise (fun a b => a.productId ≠ b.productId))
    (hstock : ∀ i ∈ cartOf s uid,
      ¬ (prodIn s.products i.productId).no_of_stocks < i.quantity)
    (hbal : Dec.blt (walletBalance s uid) (cartTotal s uid) = false) :
    (buyCart s uid rd now).1 =
      BuyOutcome.ok (cartTotal s uid) (Dec.sub (walletBalance s uid) (cartTotal s uid)) ∧
    (cartTotal s uid).val =
      ((cartOf s uid).map (fun item =>
        (productPrice s item.productId).val * (item.quantity : Rat))).sum ∧
    walletBalance (buyCart s uid rd now).2 uid =
      Dec.sub (walletBalance s uid) (cartTotal s uid) ∧
    (Dec.sub (walletBalance s uid) (cartTotal s uid)).val =
      (walletBalance s uid).val - (cartTotal s uid).val ∧
    cartOf (buyCart s uid rd now).2 uid = [] ∧
    (buyCart s uid rd now).2.orders =
      s.orders ++ (cartOf s uid).map (fun item =>
        { userId := uid, productId := item.productId,
          price := Dec.mulInt (productPrice s item.productId) item.quantity,
          date_of_purchase := now }) := by
  have hloop := purchaseLoop_success uid (rd.getD now) now (cartOf s uid)
    s.products s.orders hdis hstock
  have hbc : buyCart s uid rd now =
      (BuyOutcome.ok (cartTotal s uid) (Dec.sub (walletBalance s uid) (cartTotal s uid)),
       { products := decrementAll s.products (cartOf s uid),
         carts := s.carts.filter (fun c => !(c.userId == uid)),
         wallets := (setWallet (ensureWallet s uid) uid
           (Dec.sub (walletBalance s uid) (cartTotal s uid))).wallets,
         orders := s.orders ++ ordersFor uid now s.products (cartOf s uid) }) := by
    rw [buyCart_loop s uid rd now hne hbal, hloop]
  refine ⟨by rw [hbc], cartTotal_val s uid, ?_, Dec.val_sub _ _, ?_, ?_⟩
  · rw [walletBalance_eq_of_wallets_eq _ _ uid
      (buyCart_wallets_of_not_lt s uid rd now hne hbal),
      walletBalance_setWallet_self _ _ _ (ensureWallet_found s uid)]
  · rw [hbc]
    exact filter_user_of_filter_not_user s.carts uid
  · rw [hbc]
    show s.orders ++ ordersFor uid now s.products (cartOf s uid) = _
    rw [ordersFor_eq_of_fk s uid now _ hfk]

/-- Closed instance of `C1_checkout_success` at the worked example state. -/
theorem C1_checkout_success_witness :
    (buyCart stateBuyOk 1 none dt927).1 =
      BuyOutcome.ok (cartTotal stateBuyOk 1)
        (Dec.sub (walletBalance stateBuyOk 1) (cartTotal stateBuyOk 1)) ∧
    (cartTotal stateBuyOk 1).val =
      ((cartOf stateBuyOk 1).map (fun item =>
        (productPrice stateBuyOk item.productId).val * (item.quantity : Rat))).sum ∧
    walletBalance (buyCart stateBuyOk 1 none dt927).2 1 =
      Dec.sub (walletBalance stateBuyOk 1) (cartTotal stateBuyOk 1) ∧
    (Dec.sub (walletBalance stateBuyOk 1) (cartTotal stateBuyOk 1)).val =
      (walletBalance stateBuyOk 1).val - (cartTotal stateBuyOk 1).val ∧
    cartOf (buyCart stateBuyOk 1 none dt927).2 1 = [] ∧
    (buyCart stateBuyOk 1 none dt927).2.orders =
      stateBuyOk.orders ++ (cartOf stateBuyOk 1).map (fun item =>
        { userId := 1, productId := item.productId,
          price := Dec.mulInt (productPrice stateBuyOk item.productId) item.quantity,
          date_of_purchase := dt927 }) :=
  C1_checkout_success stateBuyOk 1 none dt927 (by decide) (by decide) (by decide)
    (by decide) (by decide)

/-! ## Claim C3 -/

/-- C3 counterexample: in `stateBroke` all stocks are non-negative and the
single cart line's quantity (2) exceeds the product's stock (0), yet
checkout does not fail with the out-of-stock error — the balance check comes
first and it fails with the insufficient-balance error instead. -/
theorem C3_counterexample :
    (∀ p ∈ stateBroke.products, 0 ≤ p.no_of_stocks) ∧
    (prodIn stateBroke.products 1).no_of_stocks < 2 ∧
    ({ userId := 1, productId := 1, quantity := 2 } : CartLine) ∈ cartOf stateBroke 1 ∧
    (buyCart stateBroke 1 none dt927).1 = BuyOutcome.insufficientBalance ∧
    ∀ nm, (buyCart stateBroke 1 none dt927).1 ≠ BuyOutcome.outOfStock nm := by
  refine ⟨by decide, by decide, by decide, by decide, ?_⟩
  intro nm h
  rw [show (buyCart stateBroke 1 none dt927).1 = BuyOutcome.insufficientBalance
    from by decide] at h
  cases h

/-- C3 (amended: the out-of-stock conjunct holds for the first offending
line and only once the balance check has passed): with intact foreign keys,
pairwise-distinct cart products, unique product ids and non-negative stocks,
(a) a successful checkout leaves each purchased product's stock at prior
minus the purchased quantity, (b) no product stock is ever negative after
checkout, and (c) when the balance covers the total, the first cart line
whose quantity exceeds its product's stock makes checkout fail with the
out-of-stock error naming that product, without decrementing that product's
stock and without creating any order for it. -/
theorem C3_stock_safety (s : State) (uid : Nat) (rd : Option DateTime) (now : DateTime)
    (hfk : ∀ i ∈ cartOf s uid, (findProduct s i.productId).isSome = true)
    (hdis : (cartOf s uid).Pairwise (fun a b => a.productId ≠ b.productId))
    (hpk : s.products.Pairwise (fun p q => p.id ≠ q.id))
    (hnn : ∀ p ∈ s.products, 0 ≤ p.no_of_stocks) :
    (∀ t r, (buyCart s uid rd now).1 = BuyOutcome.ok t r →
      ∀ i ∈ cartOf s uid,
        prodIn (buyCart s uid rd now).2.products i.productId =
          { prodIn s.products i.productId with
              no_of_stocks := (prodIn s.products i.productId).no_of_stocks - i.quantity }) ∧
    (∀ p ∈ (buyCart s uid rd now).2.products, 0 ≤ p.no_of_stocks) ∧
    (∀ pre item post, cartOf s uid = pre ++ item :: post →
      (∀ j ∈ pre, ¬ (prodIn s.products j.productId).no_of_stocks < j.quantity) →
      (prodIn s.products item.productId).no_of_stocks < item.quantity →
      Dec.blt (walletBalance s uid) (cartTotal s uid) = false →
      (buyCart s uid rd now).1 =
        BuyOutcome.outOfStock (prodIn s.products item.productId).name ∧
      prodIn (buyCart s uid rd now).2.products item.productId =
        prodIn s.products item.productId ∧
      ∀ o ∈ (buyCart s uid rd now).2.orders, o ∈ s.orders ∨ o.productId ≠ item.productId) := by
  refine ⟨?_, ?_, ?_⟩
  · -- (a) success decrements
    intro t r hok i hi
    cases hemp : (cartOf s uid).isEmpty with
    | true =>
      rw [buyCart_empty s uid rd now hemp] at hok
      cases hok
    | false =>
      cases hlt : Dec.blt (walletBalance s uid) (cartTotal s uid) with
      | true =>
        rw [buyCart_insufficient s uid rd now hemp hlt] at hok
        cases hok
      | false =>
        have hbc := buyCart_loop s uid rd now hemp hlt
        have hprod := purchaseLoop_none_products uid (rd.getD now) now
          (cartOf s uid) s.products s.orders
        rcases hres : purchaseLoop uid (rd.getD now) now (cartOf s uid) s.products s.orders
          with ⟨fst, ps, os⟩
        rw [hres] at hbc hprod
        cases fst with
        | some name =>
          rw [hbc] at hok
          cases hok
        | none =>
          rw [hbc]
          show prodIn ps i.productId = _
          have hps : ps = decrementAll s.products (cartOf s uid) := hprod rfl
          rw [hps]
          obtain ⟨l1, l2, hsplit⟩ := List.append_of_mem hi
          have hdis2 := hsplit ▸ hdis
          rw [hsplit]
          exact prodIn_decrementAll_of_mem s.products l1 l2 i
            (pairwise_decomp_pre l1 i l2 hdis2)
            (pairwise_decomp_post l1 i l2 hdis2)
            (hfk i hi)
  · -- (b) stocks stay non-negative
    cases hemp : (cartOf s uid).isEmpty with
    | true =>
      rw [buyCart_empty s uid rd now hemp]
      exact hnn
    | false =>
      cases hlt : Dec.blt (walletBalance s uid) (cartTotal s uid) with
      | true =>
        rw [buyCart_insufficient s uid rd now hemp hlt]
        rw [ensureWallet_products]
        exact hnn
      | false =>
        have hbc := buyCart_loop s uid rd now hemp hlt
        have hnn2 := purchaseLoop_nonneg uid (rd.getD now) now (cartOf s uid)
          s.products s.orders hpk hnn
        rcases hres : purchaseLoop uid (rd.getD now) now (cartOf s uid) s.products s.orders
          with ⟨fst, ps, os⟩
        rw [hres] at hbc hnn2
        cases fst with
        | some name =>
          rw [hbc]
          exact hnn2
        | none =>
          rw [hbc]
          exact hnn2
  · -- (c) first exceeding line
    intro pre item post hsplit hpass hfail hbal
    have hne : (cartOf s uid).isEmpty = false := by
      rw [hsplit]
      cases pre <;> rfl
    have hloopf := purchaseLoop_fail uid (rd.getD now) now pre item post
      s.products s.orders (hsplit ▸ hdis) hpass hfail
    have hbc : buyCart s uid rd now =
        (BuyOutcome.outOfStock (prodIn s.products item.productId).name,
         { products := decrementAll s.products pre,
           carts := s.carts,
           wallets := (setWallet (ensureWallet s uid) uid
             (Dec.sub (walletBalance s uid) (cartTotal s uid))).wallets,
           orders := s.orders ++ ordersFor uid now s.products pre }) := by
      rw [buyCart_loop s uid rd now hne hbal, hsplit, hloopf]
    refine ⟨by rw [hbc], ?_, ?_⟩
    · rw [hbc]
      exact prodIn_decrementAll_not_mem s.products pre item.productId
        (pairwise_decomp_pre pre item post (hsplit ▸ hdis))
    · intro o ho
      rw [hbc] at ho
      rcases List.mem_append.mp ho with hold | hnew
      · exact Or.inl hold
      · right
        unfold ordersFor at hnew
        obtain ⟨j, hj, rfl⟩ := List.mem_map.mp hnew
        have hjc : j ∈ cartOf s uid := by
          rw [hsplit]
          exact List.mem_append_left _ hj
        show (prodIn s.products j.productId).id ≠ item.productId
        rw [prodIn_id_of_found _ _ (hfk j hjc)]
        exact pairwise_decomp_pre pre item post (hsplit ▸ hdis) j hj

/-- Closed instance of `C3_stock_safety` at the two-line cart state. -/
theorem C3_stock_safety_witness :
    (∀ t r, (buyCart stateTwoLines 1 none dt927).1 = BuyOutcome.ok t r →
      ∀ i ∈ cartOf stateTwoLines 1,
        prodIn (buyCart stateTwoLines 1 none dt927).2.products i.productId =
          { prodIn stateTwoLines.products i.productId with
              no_of_stocks :=
                (prodIn stateTwoLines.products i.productId).no_of_stocks - i.quantity }) ∧
    (∀ p ∈ (buyCart stateTwoLines 1 none dt927).2.products, 0 ≤ p.no_of_stocks) ∧
    (∀ pre item post, cartOf stateTwoLines 1 = pre ++ item :: post →
      (∀ j ∈ pre, ¬ (prodIn stateTwoLines.products j.productId).no_of_stocks < j.quantity) →
      (prodIn stateTwoLines.products item.productId).no_of_stocks < item.quantity →
      Dec.blt (walletBalance stateTwoLines 1) (cartTotal stateTwoLines 1) = false →
      (buyCart stateTwoLines 1 none dt927).1 =
        BuyOutcome.outOfStock (prodIn stateTwoLines.products item.productId).name ∧
      prodIn (buyCart stateTwoLines 1 none dt927).2.products item.productId =
        prodIn stateTwoLines.products item.productId ∧
      ∀ o ∈ (buyCart stateTwoLines 1 none dt927).2.orders,
        o ∈ stateTwoLines.orders ∨ o.productId ≠ item.productId) :=
  C3_stock_safety stateTwoLines 1 none dt927 (by decide) (by decide) (by decide) (by decide)

/-! ## Claim C4 -/

/-- C4: when checkout fails out-of-stock on a cart line, the stock re-check
having run after the wallet debit, nothing is rolled back: the wallet stays
debited by the full total (no refund), the stock decrements and the order
rows of the lines processed before the failing line persist, and the user's
cart lines are not deleted.  The failing line is characterised as in the
source loop: the first line of the user's cart whose quantity exceeds its
product's stock. -/
theorem C4_no_rollback (s : State) (uid : Nat) (rd : Option DateTime) (now : DateTime)
    (hfk : ∀ i ∈ cartOf s uid, (findProduct s i.productId).isSome = true)
    (hdis : (cartOf s uid).Pairwise (fun a b => a.productId ≠ b.productId))
    (pre : List CartLine) (item : CartLine) (post : List CartLine)
    (hsplit : cartOf s uid = pre ++ item :: post)
    (hpass : ∀ j ∈ pre, ¬ (prodIn s.products j.productId).no_of_stocks < j.quantity)
    (hfail : (prodIn s.products item.productId).no_of_stocks < item.quantity)
    (hbal : Dec.blt (walletBalance s uid) (cartTotal s uid) = false) :
    (buyCart s uid rd now).1 =
      BuyOutcome.outOfStock (prodIn s.products item.productId).name ∧
    walletBalance (buyCart s uid rd now).2 uid =
      Dec.sub (walletBalance s uid) (cartTotal s uid) ∧
    (∀ j ∈ pre,
      prodIn (buyCart s uid rd now).2.products j.productId =
        { prodIn s.products j.productId with
            no_of_stocks := (prodIn s.products j.productId).no_of_stocks - j.quantity }) ∧
    (buyCart s uid rd now).2.orders =
      s.orders ++ pre.map (fun j =>
        { userId := uid, productId := j.productId,
          price := Dec.mulInt (productPrice s j.productId) j.quantity,
          date_of_purchase := now }) ∧
    (buyCart s uid rd now).2.carts = s.carts := by
  have hne : (cartOf s uid).isEmpty = false := by
    rw [hsplit]
    cases pre <;> rfl
  have hloopf := purchaseLoop_fail uid (rd.getD now) now pre item post
    s.products s.orders (hsplit ▸ hdis) hpass hfail
  have hbc : buyCart s uid rd now =
      (BuyOutcome.outOfStock (prodIn s.products item.productId).name,
       { products := decrementAll s.products pre,
         carts := s.carts,
         wallets := (setWallet (ensureWallet s uid) uid
           (Dec.sub (walletBalance s uid) (cartTotal s uid))).wallets,
         orders := s.orders ++ ordersFor uid now s.products pre }) := by
    rw [buyCart_loop s uid rd now hne hbal, hsplit, hloopf]
  have hpre_sub : ∀ j ∈ pre, j ∈ cartOf s uid := by
    intro j hj
    rw [hsplit]
    exact List.mem_append_left _ hj
  refine ⟨by rw [hbc], ?_, ?_, ?_, by rw [hbc]⟩
  · rw [walletBalance_eq_of_wallets_eq _ _ uid
      (buyCart_wallets_of_not_lt s uid rd now hne hbal),
      walletBalance_setWallet_self _ _ _ (ensureWallet_found s uid)]
  · intro j hj
    rw [hbc]
    obtain ⟨l1, l2, hsplit2⟩ := List.append_of_mem hj
    have hdpre : pre.Pairwise (fun a b => a.productId ≠ b.productId) :=
      (List.pairwise_append.mp (hsplit ▸ hdis)).1
    have hdis2 := hsplit2 ▸ hdpre
    show prodIn (decrementAll s.products pre) j.productId = _
    rw [hsplit2]
    exact prodIn_decrementAll_of_mem s.products l1 l2 j
      (pairwise_decomp_pre l1 j l2 hdis2)
      (pairwise_decomp_post l1 j l2 hdis2)
      (hfk j (hpre_sub j hj))
  · rw [hbc]
    show s.orders ++ ordersFor uid now s.products pre = _
    rw [ordersFor_eq_of_fk s uid now pre (fun j hj => hfk j (hpre_sub j hj))]

/-- Closed instance of `C4_no_rollback` at the two-line cart state, failing
on the second line after the first was processed. -/
theorem C4_no_rollback_witness :
    (buyCart stateTwoLines 1 none dt927).1 =
      BuyOutcome.outOfStock (prodIn stateTwoLines.products 2).name ∧
    walletBalance (buyCart stateTwoLines 1 none dt927).2 1 =
      Dec.sub (walletBalance stateTwoLines 1) (cartTotal stateTwoLines 1) ∧
    (∀ j ∈ [({ userId := 1, productId := 1, quantity := 2 } : CartLine)],
      prodIn (buyCart stateTwoLines 1 none dt927).2.products j.productId =
        { prodIn stateTwoLines.products j.productId with
            no_of_stocks := (prodIn stateTwoLines.products j.productId).no_of_stocks - j.quantity }) ∧
    (buyCart stateTwoLines 1 none dt927).2.orders =
      stateTwoLines.orders ++
        [({ userId := 1, productId := 1, quantity := 2 } : CartLine)].map (fun j =>
          { userId := 1, productId := j.productId,
            price := Dec.mulInt (productPrice stateTwoLines j.productId) j.quantity,
            date_of_purchase := dt927 }) ∧
    (buyCart stateTwoLines 1 none dt927).2.carts = stateTwoLines.carts :=
  C4_no_rollback stateTwoLines 1 none dt927 (by decide) (by decide)
    [{ userId := 1, productId := 1, quantity := 2 }]
    { userId := 1, productId := 2, quantity := 1 } [] (by decide) (by decide)
    (by decide) (by decide)

/-! ## Claim C6 -/

/-- C6 (evaluation at the failing input): adding quantity 1 and then
quantity 1 for the same (user, product) pair, starting from an empty cart,
leaves a single cart line with quantity 3 — not 1 + 1 = 2 as the claim
states — because `get_or_create` creates the line with the model default
`quantity = 1` before the view adds the requested amount. -/
theorem C6_add_to_cart_eval :
    ((addToCart ((addToCart stateEmptyCart 1 1 1).2) 1 1 1).2).carts =
      [{ userId := 1, productId := 1, quantity := 3 }] ∧
    ((addToCart ((addToCart stateEmptyCart 1 1 1).2) 1 1 1).2).carts ≠
      [{ userId := 1, productId := 1, quantity := 2 }] := by decide

/-! ## Claim C7 -/

/-- C7 (evaluation at the failing input): topping up the wallet with the
unparseable amount string "abc" makes `Decimal("abc")` raise
`decimal.InvalidOperation`, which `except (ValueError, TypeError)` does not
catch — the request dies in an unhandled exception rather than the claimed
InvalidAmount/BadRequest response (the state is left unchanged). -/
theorem C7_add_funds_eval :
    addFunds stateEmptyCart 1 (some (ReqValue.str "abc")) =
      (FundsOutcome.uncaught PyExn.invalidOperation, stateEmptyCart) ∧
    ∀ msg, (addFunds stateEmptyCart 1 (some (ReqValue.str "abc"))).1 ≠
      FundsOutcome.badRequest msg := by
  refine ⟨by decide, ?_⟩
  intro msg h
  rw [show (addFunds stateEmptyCart 1 (some (ReqValue.str "abc"))).1 =
    FundsOutcome.uncaught PyExn.invalidOperation from by decide] at h
  cases h

/-! ## Claim C8 -/

/-- C8 counterexample: with an unparseable `from_date` and a well-formed
`to_date`, the report view raises an uncaught `TypeError` — `parse_date`
returns `None` and `datetime.combine` rejects it — instead of answering
BadRequest as the claim states. -/
theorem C8_counterexample :
    salesReportByDateRange stateOrders (some "garbage") (some "2024-09-28") =
      ReportOutcome.uncaught PyExn.typeError ∧
    salesReportByDateRange stateOrders (some "garbage") (some "2024-09-28") ≠
      ReportOutcome.badRequest := by decide

/-- C8 (amended): both report views answer BadRequest exactly when an
endpoint is missing or empty; when both endpoints are present, an endpoint
that does not parse as a calendar date escapes as an uncaught exception
(TypeError for a regex mismatch, ValueError for a well-formed but invalid
date) rather than BadRequest; and the views succeed exactly when both
endpoints parse. -/
theorem C8_report_validation (s : State) (f t : Option String) :
    (salesReportByDateRange s f t = ReportOutcome.badRequest ↔
      (strFalsy f || strFalsy t) = true) ∧
    (salesReportByBrand s f t = ReportOutcome.badRequest ↔
      (strFalsy f || strFalsy t) = true) ∧
    ((∃ rows, salesReportByDateRange s f t = ReportOutcome.ok rows) ↔
      ((strFalsy f || strFalsy t) = false ∧
       ∃ fd td, computeRange (f.getD "") (t.getD "") = Except.ok (fd, td))) ∧
    ((∃ rows, salesReportByBrand s f t = ReportOutcome.ok rows) ↔
      ((strFalsy f || strFalsy t) = false ∧
       ∃ fd td, computeRange (f.getD "") (t.getD "") = Except.ok (fd, td))) ∧
    (∀ e, (strFalsy f || strFalsy t) = false →
      computeRange (f.getD "") (t.getD "") = Except.error e →
      salesReportByDateRange s f t = ReportOutcome.uncaught e ∧
      salesReportByBrand s f t = ReportOutcome.uncaught e) := by
  cases hfal : (strFalsy f || strFalsy t) with
  | true =>
    unfold salesReportByDateRange salesReportByBrand
    rw [hfal]
    simp
  | false =>
    unfold salesReportByDateRange salesReportByBrand
    rw [hfal]
    simp only [Bool.false_eq_true, if_false]
    cases hcr : computeRange (f.getD "") (t.getD "") with
    | error e => simp [hcr]
    | ok fdtd =>
      rcases fdtd with ⟨fd, td⟩
      simp [hcr]

/-- Closed instance of `C8_report_validation`: a missing endpoint answers
BadRequest. -/
theorem C8_report_validation_witness :
    salesReportByDateRange stateOrders none (some "2024-09-28") =
      ReportOutcome.badRequest :=
  (C8_report_validation stateOrders none (some "2024-09-28")).1.mpr (by decide)

/-! ## Lemmas about the report aggregation -/

theorem groupRows_map_fst {K : Type} [LinearOrder K] [DecidableEq K] (key : Order → K) (os : List Order) :
    (groupRows key os).map Prod.fst =
      List.insertionSort (· ≤ ·) ((os.map key).dedup) := by
  unfold groupRows
  rw [List.map_map]
  have hid : (Prod.fst ∘ fun k : K =>
      (k, (os.filter (fun o => key o = k)).length,
        Dec.lsum ((os.filter (fun o => key o = k)).map Order.price))) = id := rfl
  rw [hid, List.map_id]

theorem groupRows_sorted {K : Type} [LinearOrder K] [DecidableEq K] (key : Order → K) (os : List Order) :
    ((groupRows key os).map Prod.fst).Pairwise (· < ·) := by
  rw [groupRows_map_fst]
  have hs : (List.insertionSort (· ≤ ·) ((os.map key).dedup)).Sorted (· ≤ ·) :=
    List.sorted_insertionSort _ _
  have hn : (List.insertionSort (· ≤ ·) ((os.map key).dedup)).Nodup :=
    ((List.perm_insertionSort _ _).nodup_iff).mpr (List.nodup_dedup _)
  exact hs.lt_of_le hn

theorem groupRows_keys_mem {K : Type} [LinearOrder K] [DecidableEq K] (key : Order → K) (os : List Order)
    (k : K) :
    (k ∈ (groupRows key os).map Prod.fst) ↔ ∃ o ∈ os, key o = k := by
  rw [groupRows_map_fst]
  simp [List.mem_insertionSort, List.mem_dedup, List.mem_map]

theorem groupRows_row {K : Type} [LinearOrder K] [DecidableEq K] (key : Order → K) (os : List Order)
    (row : K × Nat × Dec) (h : row ∈ groupRows key os) :
    row.2.1 = (os.filter (fun o => key o = row.1)).length ∧
    row.2.2 = Dec.lsum ((os.filter (fun o => key o = row.1)).map Order.price) := by
  unfold groupRows at h
  obtain ⟨k, hk, rfl⟩ := List.mem_map.mp h
  exact ⟨rfl, rfl⟩

theorem ordersInRange_day_filter (os : List Order) (fd td : Int)
    (hv : ∀ o ∈ os, o.date_of_purchase.micro < microsecondsPerDay) :
    ordersInRange os fd td =
      os.filter (fun o => decide (fd ≤ o.date_of_purchase.day) &&
        decide (o.date_of_purchase.day ≤ td)) := by
  unfold ordersInRange
  apply List.filter_congr
  intro o ho
  have hm := hv o ho
  unfold microsecondsPerDay at hm
  rw [Bool.eq_iff_iff]
  unfold dtLeb startOfDay endOfDay microsecondsPerDay
  simp only [Bool.and_eq_true, Bool.or_eq_true, decide_eq_true_eq, beq_iff_eq]
  omega

/-! ## Claim C9 -/

/-- C9: over a valid date range the by-date report has exactly one row per
distinct purchase date among the orders whose timestamp lies in the
inclusive start-of-day-to-end-of-day range (which is exactly day-level
inclusive filtering), each row carrying the count of those orders and the
sum of their prices, sorted strictly ascending by date; the by-brand report
does the same keyed by the product's brand; and a range containing no
orders produces the empty result, not an error. -/
theorem C9_report_groups (s : State) (fd td : Int)
    (hv : ∀ o ∈ s.orders, o.date_of_purchase.micro < microsecondsPerDay) :
    ordersInRange s.orders fd td =
      s.orders.filter (fun o => decide (fd ≤ o.date_of_purchase.day) &&
        decide (o.date_of_purchase.day ≤ td)) ∧
    ((salesByDate s.orders fd td).map Prod.fst).Pairwise (· < ·) ∧
    (∀ k : Int, k ∈ (salesByDate s.orders fd td).map Prod.fst ↔
      ∃ o ∈ ordersInRange s.orders fd td, o.date_of_purchase.day = k) ∧
    (∀ row ∈ salesByDate s.orders fd td,
      row.2.1 = ((ordersInRange s.orders fd td).filter
        (fun o => o.date_of_purchase.day = row.1)).length ∧
      (row.2.2).val = (((ordersInRange s.orders fd td).filter
        (fun o => o.date_of_purchase.day = row.1)).map (fun o => o.price.val)).sum) ∧
    (ordersInRange s.orders fd td = [] → salesByDate s.orders fd td = []) ∧
    ((salesByBrand s fd td).map Prod.fst).Pairwise (· < ·) ∧
    (∀ k : String, k ∈ (salesByBrand s fd td).map Prod.fst ↔
      ∃ o ∈ ordersInRange s.orders fd td, productBrand s o.productId = k) ∧
    (∀ row ∈ salesByBrand s fd td,
      row.2.1 = ((ordersInRange s.orders fd td).filter
        (fun o => productBrand s o.productId = row.1)).length ∧
      (row.2.2).val = (((ordersInRange s.orders fd td).filter
        (fun o => productBrand s o.productId = row.1)).map (fun o => o.price.val)).sum) ∧
    (ordersInRange s.orders fd td = [] → salesByBrand s fd td = []) := by
  refine ⟨ordersInRange_day_filter s.orders fd td hv, groupRows_sorted _ _,
    fun k => groupRows_keys_mem _ _ k, ?_, ?_, groupRows_sorted _ _,
    fun k => groupRows_keys_mem _ _ k, ?_, ?_⟩
  · intro row hrow
    obtain ⟨hc, hsum⟩ := groupRows_row _ _ row hrow
    refine ⟨hc, ?_⟩
    rw [hsum, Dec.val_lsum, List.map_map]
    rfl
  · intro h
    unfold salesByDate
    rw [h]
    rfl
  · intro row hrow
    obtain ⟨hc, hsum⟩ := groupRows_row _ _ row hrow
    refine ⟨hc, ?_⟩
    rw [hsum, Dec.val_lsum, List.map_map]
    rfl
  · intro h
    unfold salesByBrand
    rw [h]
    rfl

/-- Closed instance of `C9_report_groups` over the two-day, two-brand
ledger. -/
theorem C9_report_groups_witness :
    ordersInRange stateOrders.orders 20240927 20240928 =
      stateOrders.orders.filter (fun o => decide (20240927 ≤ o.date_of_purchase.day) &&
        decide (o.date_of_purchase.day ≤ 20240928)) ∧
    ((salesByDate stateOrders.orders 20240927 20240928).map Prod.fst).Pairwise (· < ·) ∧
    (∀ k : Int, k ∈ (salesByDate stateOrders.orders 20240927 20240928).map Prod.fst ↔
      ∃ o ∈ ordersInRange stateOrders.orders 20240927 20240928,
        o.date_of_purchase.day = k) ∧
    (∀ row ∈ salesByDate stateOrders.orders 20240927 20240928,
      row.2.1 = ((ordersInRange stateOrders.orders 20240927 20240928).filter
        (fun o => o.date_of_purchase.day = row.1)).length ∧
      (row.2.2).val = (((ordersInRange stateOrders.orders 20240927 20240928).filter
        (fun o => o.date_of_purchase.day = row.1)).map (fun o => o.price.val)).sum) ∧
    (ordersInRange stateOrders.orders 20240927 20240928 = [] →
      salesByDate stateOrders.orders 20240927 20240928 = []) ∧
    ((salesByBrand stateOrders 20240927 20240928).map Prod.fst).Pairwise (· < ·) ∧
    (∀ k : String, k ∈ (salesByBrand stateOrders 20240927 20240928).map Prod.fst ↔
      ∃ o ∈ ordersInRange stateOrders.orders 20240927 20240928,
        productBrand stateOrders o.productId = k) ∧
    (∀ row ∈ salesByBrand stateOrders 20240927 20240928,
      row.2.1 = ((ordersInRange stateOrders.orders 20240927 20240928).filter
        (fun o => productBrand stateOrders o.productId = row.1)).length ∧
      (row.2.2).val = (((ordersInRange stateOrders.orders 20240927 20240928).filter
        (fun o => productBrand stateOrders o.productId = row.1)).map
          (fun o => o.price.val)).sum) ∧
    (ordersInRange stateOrders.orders 20240927 20240928 = [] →
      salesByBrand stateOrders 20240927 20240928 = []) :=
  C9_report_groups stateOrders 20240927 20240928 (by decide)
